import Mathlib

/-!
Verification development for the R&D-subject backend
(crawler `nrf_crawler.py`, ingestion pipeline `pdf_to_structured_data.py`,
search API `main.py`).  The Python source is shallowly embedded below:
pure string manipulation is translated directly, external effects
(HTTP, LLM, database) are passed in as explicit oracles, and the
control flow of every embedded function mirrors the source line by line.
-/

/-! ## Python string primitives -/

/-- Python `str.strip()`: drop leading and trailing whitespace. -/
def py_strip (s : String) : String :=
  ⟨((s.data.dropWhile Char.isWhitespace).reverse.dropWhile Char.isWhitespace).reverse⟩

/-- Python `s[:n]`: the first `n` characters. -/
def py_slice (s : String) (n : Nat) : String := ⟨s.data.take n⟩

/-- Whether `needle` matches at the head of `hay`. -/
def matchesAt : List Char → List Char → Bool
  | [], _ => true
  | _ :: _, [] => false
  | a :: as, b :: bs => a == b && matchesAt as bs

/-- Whether `needle` occurs as a contiguous run somewhere in `hay`. -/
def hasSub (needle : List Char) : List Char → Bool
  | [] => matchesAt needle []
  | c :: cs => matchesAt needle (c :: cs) || hasSub needle cs

/-- Python `pat in s` substring test. -/
def strContains (s pat : String) : Bool := hasSub pat.data s.data

/-- Python `int(text)` on a string of decimal digits. -/
def digitsToNat (cs : List Char) : Nat :=
  cs.foldl (fun n c => n * 10 + (c.toNat - '0'.toNat)) 0

/-- Python truthiness of an optional string: `None` and `""` are falsy. -/
def py_truthy : Option String → Bool
  | none => false
  | some s => !(s == "")

/-- Python `sorted(l, key=key, reverse=True)`: a stable sort, descending
by the numeric key.  `List.insertionSort` with this relation keeps
original order on ties, exactly like Python's stable sort. -/
def py_sorted_desc {α : Type} (key : α → Nat) (l : List α) : List α :=
  List.insertionSort (fun a b => key b ≤ key a) l

/-! ## Crawler: `nrf_crawler.py` -/

/-- The illegal filename characters of `re.sub(r'[<>:"/\\|?*]', '_', ...)`
in `MSSCrawler.download_file` (nrf_crawler.py:129). -/
def ILLEGAL : List Char := ['<', '>', ':', '"', '/', '\\', '|', '?', '*']

/-- `re.sub(r'[<>:"/\\|?*]', '_', name)`: replace each illegal character
by an underscore (nrf_crawler.py:129). -/
def sanitize_filename (s : String) : String :=
  ⟨s.data.map (fun c => if c ∈ ILLEGAL then '_' else c)⟩

/-- `re.search(r'(\d+)/(\d+)', text)`, returning `int(match.group(2))`
(nrf_crawler.py:54-56).  A match starts at the leftmost position holding
a maximal digit run followed by `/` and at least one digit; the second
group is the maximal digit run after the slash. -/
def searchCT : List Char → Option Nat
  | [] => none
  | c :: cs =>
    if c.isDigit then
      let r1 := (c :: cs).takeWhile Char.isDigit
      match (c :: cs).drop r1.length with
      | '/' :: rest2 =>
        let r2 := rest2.takeWhile Char.isDigit
        if r2 = [] then searchCT cs else some (digitsToNat r2)
      | _ => searchCT cs
    else searchCT cs

/-- The numeric value of one pagination-link label: the link text is
stripped and used when `text.isdigit()` holds (nonempty, all digits),
as in nrf_crawler.py:63-65. -/
def link_label (link : String) : Option Nat :=
  let t := py_strip link
  if t.data ≠ [] ∧ t.data.all Char.isDigit then some (digitsToNat t.data) else none

/-- The numeric pagination-link labels of a page. -/
def numericLabels (links : List String) : List Nat :=
  links.filterMap link_label

/-- One iteration of the pagination loop:
`last_page = max(last_page, int(text))` when the label is numeric. -/
def page_link_step (last_page : Nat) (link : String) : Nat :=
  match link_label link with
  | some v => max last_page v
  | none => last_page

/-- The pagination-link fallback of `MSSCrawler.get_total_pages`
(nrf_crawler.py:59-68): `last_page` starts at 1 and is raised to every
numeric link label; with no pagination links the function returns 1. -/
def get_total_pages_pagination (links : List String) : Nat :=
  if links = [] then 1
  else links.foldl page_link_step 1

/-- `MSSCrawler.get_total_pages` (nrf_crawler.py:47-68) over the parsed
page: `list_info` is the text of the `.list_info` element when present,
`page_links` the texts of the `.pagination a.page-link` elements. -/
def get_total_pages (list_info : Option String) (page_links : List String) : Nat :=
  match list_info with
  | some t =>
    match searchCT t.data with
    | some total => total
    | none => get_total_pages_pagination page_links
  | none => get_total_pages_pagination page_links

/-- Extension inference from the URL in `MSSCrawler.download_file`
(nrf_crawler.py:134-145); note `'.hwp'` is tested before `'.hwpx'`. -/
def infer_ext (file_url : String) : String :=
  if strContains file_url ".hwp" then ".hwp"
  else if strContains file_url ".pdf" then ".pdf"
  else if strContains file_url ".xlsx" then ".xlsx"
  else if strContains file_url ".docx" then ".docx"
  else if strContains file_url ".hwpx" then ".hwpx"
  else ""

/-- The target filename computed before the existence check in
`MSSCrawler.download_file` (nrf_crawler.py:129-147): sanitize and strip
the requested name; when it has no `.`, append the inferred extension. -/
def safe_name_initial (file_name file_url : String) : String :=
  let safe := py_strip (sanitize_filename file_name)
  if '.' ∈ safe.data then safe
  else safe ++ infer_ext file_url

/-- Outcome of the `Content-Disposition` handling of a download response
(nrf_crawler.py:159-174): header absent/empty, header present but
matching neither pattern, an RFC5987 `filename*=` name (already
URL-decoded), or a plain `filename=` name (already URL-decoded). -/
inductive CDHeader where
  | noHeader
  | unmatched
  | star (decoded : String)
  | plain (decoded : String)
deriving DecidableEq

/-- A download response: the Content-Disposition outcome and whether
`raise_for_status()` passes. -/
structure HttpResponse where
  cd : CDHeader
  ok : Bool
deriving DecidableEq

/-- The target path checked for existence (nrf_crawler.py:149-151). -/
def target_path (notice_folder file_name file_url : String) : String :=
  notice_folder ++ "/" ++ safe_name_initial file_name file_url

/-- The final path after the Content-Disposition handling
(nrf_crawler.py:159-174): a matched header replaces the file name with
the decoded, sanitized, stripped one; otherwise the guessed path is
kept. -/
def cd_final_path (resp : HttpResponse) (path notice_folder : String) : String :=
  match resp.cd with
  | CDHeader.star s => notice_folder ++ "/" ++ py_strip (sanitize_filename s)
  | CDHeader.plain s => notice_folder ++ "/" ++ py_strip (sanitize_filename s)
  | _ => path

/-- `MSSCrawler.download_file` (nrf_crawler.py:126-190).  `server` maps a
URL to its response, `existing` is the set of paths present on disk.
Returns the path result (`none` on failure), the new disk state, and the
number of network requests performed (0 or 1).  The existence check uses
the guessed target path and happens before any network activity. -/
def download_file (server : String → HttpResponse) (existing : List String)
    (file_url file_name notice_folder : String) :
    Option String × List String × Nat :=
  let path := target_path notice_folder file_name file_url
  if path ∈ existing then (some path, existing, 0)
  else
    let resp := server file_url
    let path2 := cd_final_path resp path notice_folder
    if resp.ok then (some path2, path2 :: existing, 1)
    else (none, existing, 1)

/-! ## Ingestion pipeline: `pdf_to_structured_data.py` -/

/-- A JSON field of the metadata object returned by the LLM: the key can
be absent, present with an explicit `null`, or present with a value.
Python's `dict.get(k, default)` yields the default only when the key is
absent; an explicit `null` comes back as `None`. -/
inductive JField (α : Type) where
  | absent
  | null
  | val (a : α)
deriving DecidableEq

/-- Python `metadata.get(k)`: `None` for both absent and null. -/
def JField.pyGet {α : Type} : JField α → Option α
  | .absent => none
  | .null => none
  | .val a => some a

/-- Python `metadata.get(k, d)`: the default only when the key is absent;
an explicit null stays `None`. -/
def JField.pyGetD {α : Type} (f : JField α) (d : α) : Option α :=
  match f with
  | .absent => some d
  | .null => none
  | .val a => some a

/-- The metadata object requested from the LLM
(pdf_to_structured_data.py:43-59) plus the injected `source_file`. -/
structure Metadata where
  title : JField String
  organization : JField String
  deadline : JField String
  fullDeadline : JField String
  status : JField String
  date : JField String
  description : JField String
  tags : JField (List String)
  overview : JField String
  objectives : JField (List String)
  eligibility_target : JField String
  eligibility_requirements : JField (List String)
  eligibility_restrictions : JField (List String)
  support_amount : JField String
  support_details : JField (List String)
  source_file : JField String
deriving DecidableEq

/-- The flattened row built by `SupabaseVectorStorage.store_to_supabase`
(pdf_to_structured_data.py:112-132).  Embedding entries are opaque
numbers; `created_at` is an abstract timestamp. -/
structure StoredRecord where
  content : String
  embedding : List Int
  title : Option String
  organization : Option String
  deadline : Option String
  full_deadline : Option String
  status : Option String
  announcement_date : Option String
  description : Option String
  tags : Option (List String)
  overview : Option String
  objectives : Option (List String)
  eligibility_target : Option String
  eligibility_requirements : Option (List String)
  eligibility_restrictions : Option (List String)
  support_amount : Option String
  support_details : Option (List String)
  source_file : Option String
  created_at : Nat
deriving DecidableEq

/-- `SupabaseVectorStorage.extract_text_from_pdf`
(pdf_to_structured_data.py:19-30): `pages` is `none` when opening or
parsing raises; otherwise the page texts are concatenated with a newline
after each and the result is stripped. -/
def extract_text_from_pdf (pages : Option (List String)) : Option String :=
  match pages with
  | none => none
  | some ps => some (py_strip (ps.foldl (fun text page => text ++ page ++ "\n") ""))

/-- The fixed text of the extraction prompt before the document slice
(pdf_to_structured_data.py:35-39). -/
def metadata_prompt_head : String :=
  "\n다음은 정부 과제 공고문입니다. 이 내용을 분석하여 JSON 형식으로 메타데이터를 추출해주세요.\n\n공고문 내용:\n"

/-- The fixed text of the extraction prompt after the document slice
(pdf_to_structured_data.py:41-66). -/
def metadata_prompt_tail : String :=
  "\n\n다음 JSON 형식으로 추출해주세요:\n\n\x7b\n  \"title\": \"과제명\",\n  \"organization\": \"주관기관명\",\n  \"deadline\": \"접수 마감일 (YYYY-MM-DD 형식)\",\n  \"fullDeadline\": \"전체 사업기간\",\n  \"status\": \"접수중\",\n  \"date\": \"공고일 (YYYY-MM-DD 형식)\",\n  \"description\": \"과제 한줄 설명 (100자 이내)\",\n  \"tags\": [\"태그1\", \"태그2\", \"태그3\"],\n  \"overview\": \"사업 개요 (300자 이내)\",\n  \"objectives\": [\"목표1\", \"목표2\"],\n  \"eligibility_target\": \"지원 대상\",\n  \"eligibility_requirements\": [\"자격요건1\", \"자격요건2\"],\n  \"eligibility_restrictions\": [\"제외대상1\"],\n  \"support_amount\": \"지원금액 요약\",\n  \"support_details\": [\"지원내역1\", \"지원내역2\"]\n\x7d\n\n중요:\n- 문서에 없는 정보는 null로 표시\n- 날짜는 YYYY-MM-DD 형식\n- tags는 #없이 키워드만 (예: \"인공지능\", \"R&D\")\n- 유효한 JSON만 응답\n"

/-- The prompt sent by `SupabaseVectorStorage.extract_metadata`: the
f-string embeds `pdf_text[:15000]` (pdf_to_structured_data.py:39). -/
def metadata_prompt (pdf_text : String) : String :=
  metadata_prompt_head ++ py_slice pdf_text 15000 ++ metadata_prompt_tail

/-- `SupabaseVectorStorage.extract_metadata`
(pdf_to_structured_data.py:32-89): `llm` maps the prompt to the parsed
JSON object, or `none` on API/parse failure; on success `source_file`
is injected. -/
def extract_metadata (llm : String → Option Metadata) (pdf_text pdf_filename : String) :
    Option Metadata :=
  match llm (metadata_prompt pdf_text) with
  | none => none
  | some md => some { md with source_file := JField.val pdf_filename }

/-- `SupabaseVectorStorage.create_embedding`
(pdf_to_structured_data.py:91-106): the text is truncated to its first
8000 characters before submission; `api` yields the vector or `none` on
failure. -/
def create_embedding (api : String → Option (List Int)) (text : String) :
    Option (List Int) :=
  api (py_slice text 8000)

/-- The `data` dict built by `SupabaseVectorStorage.store_to_supabase`
(pdf_to_structured_data.py:112-132): `content` is `text[:5000]`,
multi-valued fields use `metadata.get(k, [])`, single-valued ones
`metadata.get(k)`. -/
def store_to_supabase_data (text : String) (metadata : Metadata)
    (embedding : List Int) (now : Nat) : StoredRecord :=
  { content := py_slice text 5000
    embedding := embedding
    title := metadata.title.pyGet
    organization := metadata.organization.pyGet
    deadline := metadata.deadline.pyGet
    full_deadline := metadata.fullDeadline.pyGet
    status := metadata.status.pyGet
    announcement_date := metadata.date.pyGet
    description := metadata.description.pyGet
    tags := metadata.tags.pyGetD []
    overview := metadata.overview.pyGet
    objectives := metadata.objectives.pyGetD []
    eligibility_target := metadata.eligibility_target.pyGet
    eligibility_requirements := metadata.eligibility_requirements.pyGetD []
    eligibility_restrictions := metadata.eligibility_restrictions.pyGetD []
    support_amount := metadata.support_amount.pyGet
    support_details := metadata.support_details.pyGetD []
    source_file := metadata.source_file.pyGet
    created_at := now }

/-- `SupabaseVectorStorage.store_to_supabase`
(pdf_to_structured_data.py:108-140): build the row and insert it;
`insert` returns the stored row or `none` on a database error. -/
def store_to_supabase (insert : StoredRecord → Option StoredRecord)
    (text : String) (metadata : Metadata) (embedding : List Int) (now : Nat) :
    Option StoredRecord :=
  insert (store_to_supabase_data text metadata embedding now)

/-- The external effects one `process_pdf_file` run can perform. -/
structure PdfOracles where
  pages : Option (List String)
  llm : String → Option Metadata
  embedApi : String → Option (List Int)
  insert : StoredRecord → Option StoredRecord
  now : Nat

/-- Trace of one `process_pdf_file` run: the prompts sent to the LLM,
the inputs submitted for embedding, the rows handed to the database
insert, and the returned result. -/
structure ProcessTrace where
  llmCalls : List String
  embedCalls : List String
  insertCalls : List StoredRecord
  result : Option StoredRecord
deriving DecidableEq

/-- Step 4 of `SupabaseVectorStorage.process_pdf_file`
(pdf_to_structured_data.py:174-182): hand the flattened row to the
database; a failed insert yields no result. -/
def process_after_emb (o : PdfOracles) (text : String) (metadata : Metadata)
    (embedding : List Int) : ProcessTrace :=
  match o.insert (store_to_supabase_data text metadata embedding o.now) with
  | none => ⟨[metadata_prompt text], [py_slice text 8000],
      [store_to_supabase_data text metadata embedding o.now], none⟩
  | some row => ⟨[metadata_prompt text], [py_slice text 8000],
      [store_to_supabase_data text metadata embedding o.now], some row⟩

/-- Step 3 of `process_pdf_file` (pdf_to_structured_data.py:165-172):
generate the embedding; `if not embedding` rejects a missing or empty
vector and stops before any insert. -/
def process_after_md (o : PdfOracles) (text : String) (metadata : Metadata) :
    ProcessTrace :=
  match create_embedding o.embedApi text with
  | none => ⟨[metadata_prompt text], [py_slice text 8000], [], none⟩
  | some embedding =>
    if embedding = [] then ⟨[metadata_prompt text], [py_slice text 8000], [], none⟩
    else process_after_emb o text metadata embedding

/-- Step 2 of `process_pdf_file` (pdf_to_structured_data.py:154-163):
extract metadata; `if not metadata` stops before the embedding call
(the returned dict always holds at least `source_file`, so only `None`
is falsy here). -/
def process_after_text (pdf_filename : String) (o : PdfOracles) (text : String) :
    ProcessTrace :=
  match extract_metadata o.llm text pdf_filename with
  | none => ⟨[metadata_prompt text], [], [], none⟩
  | some metadata => process_after_md o text metadata

/-- `SupabaseVectorStorage.process_pdf_file`
(pdf_to_structured_data.py:142-182), composing its four sequential
steps.  `if not text` treats both `None` and the empty string as
extraction failure. -/
def process_pdf_file (pdf_filename : String) (o : PdfOracles) : ProcessTrace :=
  match extract_text_from_pdf o.pages with
  | none => ⟨[], [], [], none⟩
  | some text =>
    if text = "" then ⟨[], [], [], none⟩
    else process_after_text pdf_filename o text

/-- `SupabaseVectorStorage.process_directory`
(pdf_to_structured_data.py:184-217): process every file in order and
return `success_count`, incremented exactly when a file's processing
returned a row. -/
def process_directory (files : List (String × PdfOracles)) : Nat :=
  files.foldl (fun success_count f =>
    if ((process_pdf_file f.1 f.2).result).isSome then success_count + 1
    else success_count) 0

/-! ## Search API: `main.py` -/

/-- A row of the `government_projects` table as the API reads it. -/
structure DBRow where
  id : Nat
  row : StoredRecord
deriving DecidableEq

/-- The two error responses the handlers produce: a 404 via
`HTTPException(status_code=404, ...)` and the generic 500 of the final
`except Exception` branch. -/
inductive ApiError where
  | notFound404
  | internal500
deriving DecidableEq

/-- The `ProjectDetail` pydantic response model (main.py:43-60): `title`
and `organization` are required strings, the five multi-valued fields are
required lists; passing `None` for any of them raises a validation
error. -/
structure ProjectDetail where
  id : Nat
  title : String
  organization : String
  deadline : Option String
  full_deadline : Option String
  status : Option String
  announcement_date : Option String
  description : Option String
  tags : List String
  overview : Option String
  objectives : List String
  eligibility_target : Option String
  eligibility_requirements : List String
  eligibility_restrictions : List String
  support_amount : Option String
  support_details : List String
  source_file : Option String
deriving DecidableEq

/-- The `ProjectSearchResult` pydantic response model (main.py:34-41);
`similarity` models the float score, fixed to 1 by the listing
endpoints. -/
structure ProjectSearchResult where
  id : Nat
  title : String
  organization : String
  deadline : Option String
  description : Option String
  tags : List String
  similarity : Nat
deriving DecidableEq

/-- `get_project_detail` (main.py:125-155): select rows with the given
id; none → 404 (re-raised past the generic handler); otherwise take the
first row, normalize the five multi-valued fields with `get(k) or []`,
and validate into `ProjectDetail` — a null `title` or `organization`
fails validation, which the generic handler turns into a 500.
`detail_of` is the per-row normalization and validation step
(main.py:141-149). -/
def detail_of (r : DBRow) : Except ApiError ProjectDetail :=
  match r.row.title, r.row.organization with
  | some t, some org =>
    Except.ok
      { id := r.id
        title := t
        organization := org
        deadline := r.row.deadline
        full_deadline := r.row.full_deadline
        status := r.row.status
        announcement_date := r.row.announcement_date
        description := r.row.description
        tags := r.row.tags.getD []
        overview := r.row.overview
        objectives := r.row.objectives.getD []
        eligibility_target := r.row.eligibility_target
        eligibility_requirements := r.row.eligibility_requirements.getD []
        eligibility_restrictions := r.row.eligibility_restrictions.getD []
        support_amount := r.row.support_amount
        support_details := r.row.support_details.getD []
        source_file := r.row.source_file }
  | _, _ => Except.error ApiError.internal500

def get_project_detail (db : List DBRow) (project_id : Nat) :
    Except ApiError ProjectDetail :=
  match db.filter (fun r => r.id == project_id) with
  | [] => Except.error ApiError.notFound404
  | r :: _ => detail_of r

/-- Building one `ProjectSearchResult` from a row (main.py:172-176,
213-217): `similarity` is set to 1, `tags` normalized with `or []`;
a null `title`/`organization` fails response validation. -/
def toSearchResult (r : DBRow) : Option ProjectSearchResult :=
  match r.row.title, r.row.organization with
  | some t, some org =>
    some
      { id := r.id
        title := t
        organization := org
        deadline := r.row.deadline
        description := r.row.description
        tags := r.row.tags.getD []
        similarity := 1 }
  | _, _ => none

/-- Validate every row in order, stopping at the first failure. -/
def optionMapAll {α β : Type} (f : α → Option β) : List α → Option (List β)
  | [] => some []
  | a :: as =>
    match f a, optionMapAll f as with
    | some b, some bs => some (b :: bs)
    | _, _ => none

/-- The result-building loop shared by the listing endpoints: any row
failing validation aborts the whole response with the generic 500. -/
def buildSearchResults (rows : List DBRow) : Except ApiError (List ProjectSearchResult) :=
  match optionMapAll toSearchResult rows with
  | some l => Except.ok l
  | none => Except.error ApiError.internal500

/-- `get_recent_projects` (main.py:157-182): order by `created_at`
descending, truncate to `limit`, annotate. -/
def get_recent_projects (db : List DBRow) (limit : Nat) :
    Except ApiError (List ProjectSearchResult) :=
  buildSearchResults ((py_sorted_desc (fun r => r.row.created_at) db).take limit)

/-- Supabase `ilike('organization', '%pat%')`: case-insensitive substring
match; a null column matches nothing. -/
def ilike_contains (value : Option String) (pat : String) : Bool :=
  match value with
  | none => false
  | some v => strContains v.toLower pat.toLower

/-- Supabase `contains('tags', [t])`: array membership; a null column
contains nothing. -/
def tags_contains (tags : Option (List String)) (t : String) : Bool :=
  match tags with
  | none => false
  | some ts => ts.contains t

/-- `if organization:` (main.py:202-203) — the organization filter is
added only when the parameter is truthy. -/
def applyOrgFilter (organization : Option String) (q : List DBRow) : List DBRow :=
  if py_truthy organization then
    q.filter (fun r => ilike_contains r.row.organization (organization.getD ""))
  else q

/-- `if status:` (main.py:205-206). -/
def applyStatusFilter (status : Option String) (q : List DBRow) : List DBRow :=
  if py_truthy status then
    q.filter (fun r => r.row.status == some (status.getD ""))
  else q

/-- `if tag:` (main.py:208-209). -/
def applyTagFilter (tag : Option String) (q : List DBRow) : List DBRow :=
  if py_truthy tag then
    q.filter (fun r => tags_contains r.row.tags (tag.getD ""))
  else q

/-- `filter_projects` (main.py:184-223): each filter is applied only when
its parameter is truthy (`None` and `""` both skip it) — organization,
then status, then tag, as in the source — then order by `created_at`
descending, truncate to `limit`, annotate. -/
def filter_projects (db : List DBRow) (organization tag status : Option String)
    (limit : Nat) : Except ApiError (List ProjectSearchResult) :=
  buildSearchResults ((py_sorted_desc (fun r => r.row.created_at)
    (applyTagFilter tag (applyStatusFilter status (applyOrgFilter organization db)))).take limit)

/-- One step of the `org_count` dictionary loop of `get_stats`
(main.py:237-240): increment the key's count, or append it with count 1.
Python dicts preserve insertion order, so the dict is an ordered
association list. -/
def org_counts_step (acc : List (Option String × Nat)) (org : Option String) :
    List (Option String × Nat) :=
  if ∃ q ∈ acc, q.1 = org then
    acc.map (fun p => if p.1 = org then (p.1, p.2 + 1) else p)
  else acc ++ [(org, 1)]

/-- The `org_count` dictionary after the whole loop of `get_stats`. -/
def org_count_dict (orgs : List (Option String)) : List (Option String × Nat) :=
  orgs.foldl org_counts_step []

/-- The `get_stats` response (main.py:242-246). -/
structure StatsResult where
  total_projects : Nat
  organizations : Nat
  top_organizations : List (Option String × Nat)
deriving DecidableEq

/-- `get_stats` (main.py:225-250): exact row count, `len(org_count)`,
and `sorted(org_count.items(), key=count, reverse=True)[:5]`. -/
def get_stats (db : List DBRow) : StatsResult :=
  let org_count := org_count_dict (db.map (fun r => r.row.organization))
  { total_projects := db.length
    organizations := org_count.length
    top_organizations := (py_sorted_desc (fun p => p.2) org_count).take 5 }

/-! ## Concrete fixtures used by witnesses and counterexamples -/

/-- A stored row with every nullable column null. -/
def blankStored : StoredRecord :=
  { content := ""
    embedding := []
    title := none
    organization := none
    deadline := none
    full_deadline := none
    status := none
    announcement_date := none
    description := none
    tags := none
    overview := none
    objectives := none
    eligibility_target := none
    eligibility_requirements := none
    eligibility_restrictions := none
    support_amount := none
    support_details := none
    source_file := none
    created_at := 0 }

/-- A well-formed stored row (non-null title and organization). -/
def okStored : StoredRecord :=
  { blankStored with
    title := some "T"
    organization := some "Org"
    tags := some ["ai"]
    created_at := 3 }

/-- Metadata in which the LLM answered an explicit `null` for `tags`
(the prompt instructs exactly that for information missing from the
document). -/
def mdNullTags : Metadata :=
  { title := JField.val "T"
    organization := JField.val "Org"
    deadline := JField.null
    fullDeadline := JField.null
    status := JField.null
    date := JField.null
    description := JField.null
    tags := JField.null
    overview := JField.null
    objectives := JField.val ["o1"]
    eligibility_target := JField.null
    eligibility_requirements := JField.absent
    eligibility_restrictions := JField.absent
    support_amount := JField.null
    support_details := JField.absent
    source_file := JField.absent }

/-- Metadata with no explicit nulls among the multi-valued fields. -/
def mdOk : Metadata :=
  { mdNullTags with
    tags := JField.val ["ai"]
    eligibility_restrictions := JField.val [] }

/-- A server whose Content-Disposition renames the file. -/
def cexServer : String → HttpResponse :=
  fun _ => { cd := CDHeader.star "renamed.pdf", ok := true }

/-- A server that sends no Content-Disposition header. -/
def plainServer : String → HttpResponse :=
  fun _ => { cd := CDHeader.noHeader, ok := true }

/-- Oracles for a fully successful single-file ingestion. -/
def oraclesOk : PdfOracles :=
  { pages := some ["hello"]
    llm := fun _ => some mdOk
    embedApi := fun _ => some [1, 2]
    insert := fun d => some d
    now := 0 }

/-- Oracles whose LLM call fails. -/
def oraclesNoLLM : PdfOracles :=
  { oraclesOk with llm := fun _ => none }

/-- Oracles whose embedding call fails. -/
def oraclesNoEmbed : PdfOracles :=
  { oraclesOk with embedApi := fun _ => none }

/-- Oracles whose PDF contains only whitespace text. -/
def oraclesWhitespace : PdfOracles :=
  { oraclesOk with pages := some [" ", "\t "] }

/-- A one-row database with a null title (insertable by the pipeline
when the LLM answers `null` for the title). -/
def dbNullTitle : List DBRow := [⟨1, blankStored⟩]

/-- A one-row well-formed database. -/
def dbOk : List DBRow := [⟨7, okStored⟩]

/-- The detail response for `dbOk`'s single row. -/
def detailOk : ProjectDetail :=
  { id := 7
    title := "T"
    organization := "Org"
    deadline := none
    full_deadline := none
    status := none
    announcement_date := none
    description := none
    tags := ["ai"]
    overview := none
    objectives := []
    eligibility_target := none
    eligibility_requirements := []
    eligibility_restrictions := []
    support_amount := none
    support_details := []
    source_file := none }

/-- A minimal valid row for the statistics fixtures. -/
def statsRow (i : Nat) (org : String) (ts : Nat) : DBRow :=
  ⟨i, { blankStored with title := some "T", organization := some org, created_at := ts }⟩

/-- A three-row database over two organizations. -/
def dbStats : List DBRow := [statsRow 1 "A" 1, statsRow 2 "B" 2, statsRow 3 "B" 3]

/-! ## Helper lemmas -/

/-- Characters surviving `py_strip` come from the original string. -/
theorem mem_of_mem_py_strip {c : Char} {s : String} (h : c ∈ (py_strip s).data) :
    c ∈ s.data := by
  unfold py_strip at h
  simp only [List.mem_reverse] at h
  have h2 := (List.dropWhile_sublist Char.isWhitespace).mem h
  simp only [List.mem_reverse] at h2
  exact (List.dropWhile_sublist Char.isWhitespace).mem h2

/-- An all-whitespace string strips to the empty string. -/
theorem py_strip_all_ws {s : String} (h : ∀ c ∈ s.data, c.isWhitespace = true) :
    py_strip s = "" := by
  unfold py_strip
  have h1 : s.data.dropWhile Char.isWhitespace = [] :=
    List.dropWhile_eq_nil_iff.mpr h
  rw [h1]
  rfl

/-- The pagination fold computes the fold of `max` over the numeric
labels. -/
theorem foldl_page_link_step (links : List String) :
    ∀ a : Nat, links.foldl page_link_step a = (numericLabels links).foldl max a := by
  induction links with
  | nil => intro a; rfl
  | cons l ls ih =>
    intro a
    simp only [List.foldl_cons, numericLabels, List.filterMap_cons]
    unfold page_link_step
    cases h : link_label l with
    | none => simpa [numericLabels] using ih a
    | some v => simpa [numericLabels] using ih (max a v)

/-- The start value is a lower bound of a `max` fold. -/
theorem le_foldl_max (xs : List Nat) : ∀ a : Nat, a ≤ xs.foldl max a := by
  induction xs with
  | nil => intro a; exact Nat.le_refl a
  | cons x xs ih =>
    intro a
    exact Nat.le_trans (Nat.le_max_left a x) (ih (max a x))

/-- Every list element is bounded by the `max` fold. -/
theorem mem_le_foldl_max (xs : List Nat) :
    ∀ a : Nat, ∀ v ∈ xs, v ≤ xs.foldl max a := by
  induction xs with
  | nil => intro a v hv; cases hv
  | cons x xs ih =>
    intro a v hv
    rcases List.mem_cons.mp hv with rfl | hv
    · exact Nat.le_trans (Nat.le_max_right a v) (le_foldl_max xs (max a v))
    · exact ih (max a x) v hv

/-- The `max` fold is the start value or an element of the list. -/
theorem foldl_max_mem (xs : List Nat) :
    ∀ a : Nat, xs.foldl max a = a ∨ xs.foldl max a ∈ xs := by
  induction xs with
  | nil => intro a; exact Or.inl rfl
  | cons x xs ih =>
    intro a
    rcases ih (max a x) with h | h
    · rw [List.foldl_cons, h]
      rcases Nat.le_total a x with hax | hxa
      · exact Or.inr (by rw [Nat.max_eq_right hax]; exact List.mem_cons_self x xs)
      · exact Or.inl (Nat.max_eq_left hxa)
    · exact Or.inr (List.mem_cons_of_mem x h)

/-- `get_total_pages_pagination` as a `max` fold over the labels. -/
theorem get_total_pages_pagination_eq (links : List String) :
    get_total_pages_pagination links = (numericLabels links).foldl max 1 := by
  unfold get_total_pages_pagination
  by_cases h : links = []
  · subst h; rfl
  · rw [if_neg h, foldl_page_link_step]

/-! ## Claims -/

/-- Claim C4: total-page detection first looks for a `current/total`
page-indicator; if found it returns the total.  Otherwise it falls back
to the pagination links: the result is at least 1, bounds every numeric
link label, is 1 or one of those labels, and is 1 when no numeric label
(and hence also when no link) is present. -/
theorem C4_total_page_detection (li : Option String) (pg : List String) :
    (∀ t n, li = some t → searchCT t.data = some n → get_total_pages li pg = n)
    ∧ ((li = none ∨ ∃ t, li = some t ∧ searchCT t.data = none) →
        1 ≤ get_total_pages li pg
        ∧ (∀ v ∈ numericLabels pg, v ≤ get_total_pages li pg)
        ∧ (get_total_pages li pg = 1 ∨ get_total_pages li pg ∈ numericLabels pg)
        ∧ (numericLabels pg = [] → get_total_pages li pg = 1)) := by
  constructor
  · intro t n hli hct
    subst hli
    show (match searchCT t.data with
          | some total => total
          | none => get_total_pages_pagination pg) = n
    rw [hct]
  · intro h
    have hred : get_total_pages li pg = get_total_pages_pagination pg := by
      rcases h with rfl | ⟨t, rfl, hct⟩
      · rfl
      · show (match searchCT t.data with
              | some total => total
              | none => get_total_pages_pagination pg) = get_total_pages_pagination pg
        rw [hct]
    rw [hred, get_total_pages_pagination_eq]
    refine ⟨le_foldl_max _ 1, mem_le_foldl_max _ 1, foldl_max_mem _ 1, ?_⟩
    intro hnil
    rw [hnil]
    rfl

/-- Witness for C4 at concrete pages: the indicator text `1/184` wins
over the links, and without it the maximum numeric label is returned. -/
theorem C4_total_page_detection_witness :
    searchCT "현재 페이지 : 1/184".data = some 184
    ∧ get_total_pages (some "현재 페이지 : 1/184") ["2", "3"] = 184 :=
  ⟨by decide,
    (C4_total_page_detection (some "현재 페이지 : 1/184") ["2", "3"]).1
      "현재 페이지 : 1/184" 184 rfl (by decide)⟩

/-- Claim C6: the sanitization replaces every occurrence of each
character of the illegal set `<>:"/\|?*` by an underscore — position by
position the length is kept, illegal characters become `_`, other
characters are unchanged — and the sanitized name contains no character
of the illegal set (nor does the stripped name written to disk). -/
theorem C6_filename_sanitization (s : String) :
    (sanitize_filename s).data.length = s.data.length
    ∧ (∀ p ∈ s.data.zip (sanitize_filename s).data,
        (p.1 ∈ ILLEGAL → p.2 = '_') ∧ (p.1 ∉ ILLEGAL → p.2 = p.1))
    ∧ (∀ c ∈ (sanitize_filename s).data, c ∉ ILLEGAL)
    ∧ (∀ c ∈ (py_strip (sanitize_filename s)).data, c ∉ ILLEGAL) := by
  have hdata : (sanitize_filename s).data
      = s.data.map (fun c => if c ∈ ILLEGAL then '_' else c) := rfl
  have hmem : ∀ c ∈ (sanitize_filename s).data, c ∉ ILLEGAL := by
    intro c hc
    rw [hdata] at hc
    obtain ⟨a, _, ha⟩ := List.mem_map.mp hc
    by_cases h : a ∈ ILLEGAL
    · rw [if_pos h] at ha
      rw [← ha]
      decide
    · rw [if_neg h] at ha
      rw [← ha]
      exact h
  refine ⟨?_, ?_, hmem, ?_⟩
  · rw [hdata, List.length_map]
  · intro p hp
    have hz : s.data.zip (sanitize_filename s).data
        = s.data.map (fun a => (a, if a ∈ ILLEGAL then '_' else a)) := by
      conv_lhs => rw [show s.data = s.data.map id from (List.map_id s.data).symm]
      rw [hdata, List.zip_map']
      simp only [id_eq]
    rw [hz] at hp
    obtain ⟨a, _, ha⟩ := List.mem_map.mp hp
    constructor
    · intro hill
      rw [← ha] at hill ⊢
      simp only at hill
      rw [if_pos hill]
    · intro hill
      rw [← ha] at hill ⊢
      simp only at hill
      rw [if_neg hill]
  · intro c hc
    exact hmem c (mem_of_mem_py_strip hc)

/-- Witness for C6 on a concrete filename holding several illegal
characters. -/
theorem C6_filename_sanitization_witness :
    sanitize_filename "a<b>:c/d\\e|f?g*.pdf" = "a_b__c_d_e_f_g_.pdf"
    ∧ ((sanitize_filename "a<b>:c/d\\e|f?g*.pdf").data.length
        = "a<b>:c/d\\e|f?g*.pdf".data.length
      ∧ (∀ p ∈ "a<b>:c/d\\e|f?g*.pdf".data.zip
            (sanitize_filename "a<b>:c/d\\e|f?g*.pdf").data,
          (p.1 ∈ ILLEGAL → p.2 = '_') ∧ (p.1 ∉ ILLEGAL → p.2 = p.1))
      ∧ (∀ c ∈ (sanitize_filename "a<b>:c/d\\e|f?g*.pdf").data, c ∉ ILLEGAL)
      ∧ (∀ c ∈ (py_strip (sanitize_filename "a<b>:c/d\\e|f?g*.pdf")).data,
          c ∉ ILLEGAL)) :=
  ⟨by decide, C6_filename_sanitization "a<b>:c/d\\e|f?g*.pdf"⟩

/-- Claim C10: the filtered-listing operation treats an empty string for
any of the organization, tag or status parameters exactly like an
omitted parameter — the whole response is equal. -/
theorem C10_empty_filter_params (db : List DBRow) (a b : Option String) (limit : Nat) :
    filter_projects db (some "") a b limit = filter_projects db none a b limit
    ∧ filter_projects db a (some "") b limit = filter_projects db a none b limit
    ∧ filter_projects db a b (some "") limit = filter_projects db a b none limit :=
  ⟨rfl, rfl, rfl⟩

/-- Counterexample to claim C2: when the server's Content-Disposition
header renames the file, the saved path differs from the checked target
path, so fetching the same URL twice into the same destination performs
two network transfers, not one. -/
theorem C2_cex_content_disposition_rename :
    (download_file cexServer [] "http://x/f.pdf" "orig.pdf" "d").2.2
      + (download_file cexServer
          (download_file cexServer [] "http://x/f.pdf" "orig.pdf" "d").2.1
          "http://x/f.pdf" "orig.pdf" "d").2.2 = 2
    ∧ ((download_file cexServer [] "http://x/f.pdf" "orig.pdf" "d").2.2
      + (download_file cexServer
          (download_file cexServer [] "http://x/f.pdf" "orig.pdf" "d").2.1
          "http://x/f.pdf" "orig.pdf" "d").2.2 ≠ 1) := by
  constructor
  · rfl
  · decide

/-- Claim C2 (amended): if the target path computed from the sanitized
requested filename already exists, `download_file` performs no network
request and returns it as success.  Consequently, fetching the same URL
twice into the same destination performs exactly one network transfer —
provided the first response's Content-Disposition does not move the file
away from the computed target path. -/
theorem C2_download_idempotent (server : String → HttpResponse)
    (existing : List String) (url name folder : String) :
    (target_path folder name url ∈ existing →
      download_file server existing url name folder
        = (some (target_path folder name url), existing, 0))
    ∧ (target_path folder name url ∉ existing →
        (server url).ok = true →
        cd_final_path (server url) (target_path folder name url) folder
          = target_path folder name url →
        download_file server existing url name folder
          = (some (target_path folder name url),
             target_path folder name url :: existing, 1)
        ∧ download_file server (target_path folder name url :: existing)
            url name folder
          = (some (target_path folder name url),
             target_path folder name url :: existing, 0)) := by
  constructor
  · intro h
    unfold download_file
    rw [if_pos h]
  · intro hni hok hcd
    constructor
    · unfold download_file
      rw [if_neg hni]
      simp only [hcd, hok, if_true]
    · unfold download_file
      rw [if_pos (List.mem_cons_self _ _)]

/-- Witness for C2 on a concrete header-free server: the first fetch
transfers once, the second returns the existing path without network
traffic. -/
theorem C2_download_idempotent_witness :
    (target_path "d" "a.pdf" "u" ∉ ([] : List String)
      ∧ (plainServer "u").ok = true
      ∧ cd_final_path (plainServer "u") (target_path "d" "a.pdf" "u") "d"
          = target_path "d" "a.pdf" "u")
    ∧ (download_file plainServer [] "u" "a.pdf" "d"
        = (some (target_path "d" "a.pdf" "u"), target_path "d" "a.pdf" "u" :: [], 1)
      ∧ download_file plainServer (target_path "d" "a.pdf" "u" :: []) "u" "a.pdf" "d"
        = (some (target_path "d" "a.pdf" "u"), target_path "d" "a.pdf" "u" :: [], 0)) :=
  ⟨⟨by decide, rfl, rfl⟩,
    (C2_download_idempotent plainServer [] "u" "a.pdf" "d").2
      (by decide) rfl rfl⟩

/-- Every element of a successful `optionMapAll` image comes from some
source element. -/
theorem optionMapAll_mem {α β : Type} (f : α → Option β) :
    ∀ (l : List α) (res : List β), optionMapAll f l = some res →
      ∀ b ∈ res, ∃ a ∈ l, f a = some b := by
  intro l
  induction l with
  | nil =>
    intro res h b hb
    unfold optionMapAll at h
    injection h with h'
    subst h'
    cases hb
  | cons a as ih =>
    intro res h b hb
    unfold optionMapAll at h
    cases hfa : f a with
    | none => rw [hfa] at h; cases h
    | some fb =>
      rw [hfa] at h
      cases hrest : optionMapAll f as with
      | none => rw [hrest] at h; cases h
      | some bs =>
        rw [hrest] at h
        injection h with h'
        subst h'
        rcases List.mem_cons.mp hb with rfl | hb2
        · exact ⟨a, List.mem_cons_self a as, hfa⟩
        · obtain ⟨a2, ha2, hfa2⟩ := ih bs hrest b hb2
          exact ⟨a2, List.mem_cons_of_mem a ha2, hfa2⟩

/-- A validated search-result item carries the row's normalized tags. -/
theorem toSearchResult_tags (r : DBRow) (item : ProjectSearchResult)
    (h : toSearchResult r = some item) : item.tags = r.row.tags.getD [] := by
  unfold toSearchResult at h
  cases ht : r.row.title with
  | none => rw [ht] at h; cases h
  | some t =>
    rw [ht] at h
    cases horg : r.row.organization with
    | none => rw [horg] at h; cases h
    | some org =>
      rw [horg] at h
      injection h with h'
      rw [← h']

/-- Items of a successful listing response carry normalized tags of
their source rows. -/
theorem buildSearchResults_tags (rows : List DBRow) (l : List ProjectSearchResult)
    (h : buildSearchResults rows = Except.ok l) :
    ∀ item ∈ l, ∃ r ∈ rows, item.tags = r.row.tags.getD [] := by
  unfold buildSearchResults at h
  cases hm : optionMapAll toSearchResult rows with
  | none => rw [hm] at h; cases h
  | some l2 =>
    rw [hm] at h
    injection h with h'
    subst h'
    intro item hitem
    obtain ⟨r, hr, hfr⟩ := optionMapAll_mem toSearchResult rows l2 hm item hitem
    exact ⟨r, hr, toSearchResult_tags r item hfr⟩

/-- Sorting keeps membership. -/
theorem mem_py_sorted_desc {α : Type} {key : α → Nat} {l : List α} {x : α}
    (h : x ∈ py_sorted_desc key l) : x ∈ l := by
  unfold py_sorted_desc at h
  exact (List.mem_insertionSort _).mp h

/-- Each optional filter stage only removes rows. -/
theorem applyOrgFilter_subset (o : Option String) (q : List DBRow) :
    applyOrgFilter o q ⊆ q := by
  unfold applyOrgFilter
  split
  · exact (List.filter_sublist q).subset
  · exact List.Subset.refl q

/-- Each optional filter stage only removes rows. -/
theorem applyStatusFilter_subset (s : Option String) (q : List DBRow) :
    applyStatusFilter s q ⊆ q := by
  unfold applyStatusFilter
  split
  · exact (List.filter_sublist q).subset
  · exact List.Subset.refl q

/-- Each optional filter stage only removes rows. -/
theorem applyTagFilter_subset (t : Option String) (q : List DBRow) :
    applyTagFilter t q ⊆ q := by
  unfold applyTagFilter
  split
  · exact (List.filter_sublist q).subset
  · exact List.Subset.refl q

/-- A successful detail response comes from a matching row whose
multi-valued columns it normalizes with `or []`. -/
theorem get_project_detail_ok_inv (db : List DBRow) (pid : Nat) (d : ProjectDetail)
    (h : get_project_detail db pid = Except.ok d) :
    ∃ r ∈ db, r.id = pid
      ∧ r.row.title = some d.title
      ∧ r.row.organization = some d.organization
      ∧ d.tags = r.row.tags.getD []
      ∧ d.objectives = r.row.objectives.getD []
      ∧ d.eligibility_requirements = r.row.eligibility_requirements.getD []
      ∧ d.eligibility_restrictions = r.row.eligibility_restrictions.getD []
      ∧ d.support_details = r.row.support_details.getD [] := by
  unfold get_project_detail at h
  cases hfil : db.filter (fun r => r.id == pid) with
  | nil => rw [hfil] at h; cases h
  | cons hd tl =>
    rw [hfil] at h
    have h2 : detail_of hd = Except.ok d := h
    have hmem : hd ∈ db.filter (fun r => r.id == pid) := by
      rw [hfil]
      exact List.mem_cons_self hd tl
    rw [List.mem_filter] at hmem
    refine ⟨hd, hmem.1, by simpa using hmem.2, ?_⟩
    unfold detail_of at h2
    cases ht : hd.row.title with
    | none => rw [ht] at h2; cases h2
    | some t =>
      rw [ht] at h2
      cases horg : hd.row.organization with
      | none => rw [horg] at h2; cases h2
      | some org =>
        rw [horg] at h2
        injection h2 with h'
        rw [← h']
        exact ⟨rfl, rfl, rfl, rfl, rfl, rfl, rfl⟩

/-- `dict.get(k, [])` is a list whenever the key is not an explicit
null. -/
theorem pyGetD_isSome {α : Type} (f : JField α) (d : α) (h : f ≠ JField.null) :
    (f.pyGetD d).isSome = true := by
  cases f with
  | absent => rfl
  | null => exact absurd rfl h
  | val a => rfl

/-- Counterexample to claim C1: the record store normalizes only absent
keys.  When the LLM answers an explicit `null` for `tags` — which the
prompt instructs it to do for missing information — `metadata.get('tags',
[])` returns `None` and the written record's `tags` column is null, not
an empty sequence. -/
theorem C1_cex_explicit_null_stored :
    mdNullTags.tags = JField.null
    ∧ (store_to_supabase_data "text" mdNullTags [1] 0).tags = none := ⟨rfl, rfl⟩

/-- Claim C1 (amended): the record store normalizes the five
multi-valued fields to sequences whenever the metadata key is absent or
holds a value (an explicit null is stored as null); the detail-lookup
response normalizes all five fields of the matching row with `or []`;
the recent and filtered listings return `tags` — the only multi-valued
field they include — normalized the same way. -/
theorem C1_multivalued_normalization :
    (∀ (text : String) (md : Metadata) (emb : List Int) (now : Nat),
      (md.tags ≠ JField.null →
        ((store_to_supabase_data text md emb now).tags).isSome = true)
      ∧ (md.objectives ≠ JField.null →
        ((store_to_supabase_data text md emb now).objectives).isSome = true)
      ∧ (md.eligibility_requirements ≠ JField.null →
        ((store_to_supabase_data text md emb now).eligibility_requirements).isSome = true)
      ∧ (md.eligibility_restrictions ≠ JField.null →
        ((store_to_supabase_data text md emb now).eligibility_restrictions).isSome = true)
      ∧ (md.support_details ≠ JField.null →
        ((store_to_supabase_data text md emb now).support_details).isSome = true))
    ∧ (∀ (db : List DBRow) (pid : Nat) (d : ProjectDetail),
        get_project_detail db pid = Except.ok d →
        ∃ r ∈ db, r.id = pid
          ∧ d.tags = r.row.tags.getD []
          ∧ d.objectives = r.row.objectives.getD []
          ∧ d.eligibility_requirements = r.row.eligibility_requirements.getD []
          ∧ d.eligibility_restrictions = r.row.eligibility_restrictions.getD []
          ∧ d.support_details = r.row.support_details.getD [])
    ∧ (∀ (db : List DBRow) (limit : Nat) (l : List ProjectSearchResult),
        get_recent_projects db limit = Except.ok l →
        ∀ item ∈ l, ∃ r ∈ db, item.tags = r.row.tags.getD [])
    ∧ (∀ (db : List DBRow) (o t s : Option String) (limit : Nat)
        (l : List ProjectSearchResult),
        filter_projects db o t s limit = Except.ok l →
        ∀ item ∈ l, ∃ r ∈ db, item.tags = r.row.tags.getD []) := by
  refine ⟨?_, ?_, ?_, ?_⟩
  · intro text md emb now
    exact ⟨fun h => pyGetD_isSome _ _ h, fun h => pyGetD_isSome _ _ h,
      fun h => pyGetD_isSome _ _ h, fun h => pyGetD_isSome _ _ h,
      fun h => pyGetD_isSome _ _ h⟩
  · intro db pid d h
    obtain ⟨r, hr, hid, _, _, h5, h6, h7, h8, h9⟩ := get_project_detail_ok_inv db pid d h
    exact ⟨r, hr, hid, h5, h6, h7, h8, h9⟩
  · intro db limit l h item hitem
    unfold get_recent_projects at h
    obtain ⟨r, hr, htags⟩ := buildSearchResults_tags _ l h item hitem
    exact ⟨r, mem_py_sorted_desc (List.mem_of_mem_take hr), htags⟩
  · intro db o t s limit l h item hitem
    unfold filter_projects at h
    obtain ⟨r, hr, htags⟩ := buildSearchResults_tags _ l h item hitem
    have h1 : r ∈ applyTagFilter t (applyStatusFilter s (applyOrgFilter o db)) :=
      mem_py_sorted_desc (List.mem_of_mem_take hr)
    exact ⟨r, applyOrgFilter_subset o db
      (applyStatusFilter_subset s _ (applyTagFilter_subset t _ h1)), htags⟩

/-- Witness for (amended) C1: a non-null metadata field is stored as a
sequence, and a concrete detail lookup yields normalized fields. -/
theorem C1_multivalued_normalization_witness :
    (mdOk.tags ≠ JField.null
      ∧ ((store_to_supabase_data "t" mdOk [1] 0).tags).isSome = true)
    ∧ (∃ r ∈ dbOk, r.id = 7
        ∧ detailOk.tags = r.row.tags.getD []
        ∧ detailOk.objectives = r.row.objectives.getD []
        ∧ detailOk.eligibility_requirements = r.row.eligibility_requirements.getD []
        ∧ detailOk.eligibility_restrictions = r.row.eligibility_restrictions.getD []
        ∧ detailOk.support_details = r.row.support_details.getD []) :=
  ⟨⟨by decide, ((C1_multivalued_normalization.1 "t" mdOk [1] 0).1 (by decide))⟩,
    C1_multivalued_normalization.2.1 dbOk 7 detailOk rfl⟩

/-- Counterexample to claim C5: for a present id whose stored row has a
null title, the response-model validation fails and the endpoint returns
the generic internal error, not the matching record. -/
theorem C5_cex_present_id_null_title :
    ((⟨1, blankStored⟩ : DBRow) ∈ dbNullTitle ∧ (⟨1, blankStored⟩ : DBRow).id = 1)
    ∧ get_project_detail dbNullTitle 1 = Except.error ApiError.internal500 :=
  ⟨⟨List.mem_cons_self _ _, rfl⟩, rfl⟩

/-- Claim C5 (amended): an absent id yields the distinct not-found error
(never a success with null fields, never the generic internal error); a
present id yields the single matching record whenever that record passes
response validation (non-null title and organization) — a present row
failing validation yields the generic internal error instead. -/
theorem C5_detail_lookup (db : List DBRow) (pid : Nat) :
    ((∀ r ∈ db, r.id ≠ pid) →
      get_project_detail db pid = Except.error ApiError.notFound404)
    ∧ (∀ r ∈ db, r.id = pid → (∀ r2 ∈ db, r2.id = pid → r2 = r) →
        ∀ t org, r.row.title = some t → r.row.organization = some org →
        get_project_detail db pid = detail_of r
        ∧ ∃ d, get_project_detail db pid = Except.ok d
            ∧ d.id = r.id ∧ d.title = t ∧ d.organization = org
            ∧ d.tags = r.row.tags.getD []) := by
  constructor
  · intro h
    have hfil : db.filter (fun x => x.id == pid) = [] := by
      rw [List.filter_eq_nil_iff]
      intro a ha
      simpa using h a ha
    unfold get_project_detail
    rw [hfil]
  · intro r hr hid huniq t org ht horg
    have hrf : r ∈ db.filter (fun x => x.id == pid) :=
      List.mem_filter.mpr ⟨hr, by simp [hid]⟩
    have hgd : get_project_detail db pid = detail_of r := by
      unfold get_project_detail
      cases hfil : db.filter (fun x => x.id == pid) with
      | nil => rw [hfil] at hrf; cases hrf
      | cons hd tl =>
        have hhd : hd ∈ db.filter (fun x => x.id == pid) := by
          rw [hfil]
          exact List.mem_cons_self hd tl
        rw [List.mem_filter] at hhd
        have heq : hd = r := huniq hd hhd.1 (by simpa using hhd.2)
        show detail_of hd = detail_of r
        rw [heq]
    have hok : detail_of r = Except.ok
        { id := r.id
          title := t
          organization := org
          deadline := r.row.deadline
          full_deadline := r.row.full_deadline
          status := r.row.status
          announcement_date := r.row.announcement_date
          description := r.row.description
          tags := r.row.tags.getD []
          overview := r.row.overview
          objectives := r.row.objectives.getD []
          eligibility_target := r.row.eligibility_target
          eligibility_requirements := r.row.eligibility_requirements.getD []
          eligibility_restrictions := r.row.eligibility_restrictions.getD []
          support_amount := r.row.support_amount
          support_details := r.row.support_details.getD []
          source_file := r.row.source_file } := by
      unfold detail_of
      rw [ht, horg]
    refine ⟨hgd, ⟨_, by rw [hgd, hok], rfl, rfl, rfl, rfl⟩⟩

/-- Witness for (amended) C5: a missing id yields 404 on a concrete
store; a present, valid id yields the single matching record. -/
theorem C5_detail_lookup_witness :
    get_project_detail dbOk 999 = Except.error ApiError.notFound404
    ∧ (get_project_detail dbOk 7 = detail_of ⟨7, okStored⟩
       ∧ ∃ d, get_project_detail dbOk 7 = Except.ok d
           ∧ d.id = (⟨7, okStored⟩ : DBRow).id ∧ d.title = "T"
           ∧ d.organization = "Org" ∧ d.tags = okStored.tags.getD []) :=
  ⟨(C5_detail_lookup dbOk 999).1 (by decide),
   (C5_detail_lookup dbOk 7).2 ⟨7, okStored⟩ (List.mem_cons_self _ _) rfl
     (by decide) "T" "Org" rfl rfl⟩

/-- The directory fold counts exactly the successfully processed files. -/
theorem process_directory_countP (files : List (String × PdfOracles)) :
    process_directory files
      = files.countP (fun f => ((process_pdf_file f.1 f.2).result).isSome) := by
  unfold process_directory
  suffices h : ∀ (fs : List (String × PdfOracles)) (n : Nat),
      fs.foldl (fun success_count f =>
        if ((process_pdf_file f.1 f.2).result).isSome then success_count + 1
        else success_count) n
      = n + fs.countP (fun f => ((process_pdf_file f.1 f.2).result).isSome) by
    simpa using h files 0
  intro fs
  induction fs with
  | nil => intro n; simp
  | cons f fs ih =>
    intro n
    rw [List.foldl_cons, List.countP_cons, ih]
    by_cases hp : ((process_pdf_file f.1 f.2).result).isSome = true
    · simp [hp]
      omega
    · simp [hp]

/-- Reduction of `process_pdf_file` once text extraction has yielded a
nonempty text. -/
theorem process_pdf_file_text_ok (f : String) (o : PdfOracles) (t : String)
    (h1 : extract_text_from_pdf o.pages = some t) (h2 : t ≠ "") :
    process_pdf_file f o = process_after_text f o t := by
  unfold process_pdf_file
  rw [h1]
  exact if_neg h2

/-- Reduction of `process_pdf_file` once metadata extraction has
succeeded. -/
theorem process_pdf_file_md_ok (f : String) (o : PdfOracles) (t : String)
    (md : Metadata)
    (h1 : extract_text_from_pdf o.pages = some t) (h2 : t ≠ "")
    (h3 : extract_metadata o.llm t f = some md) :
    process_pdf_file f o = process_after_md o t md := by
  rw [process_pdf_file_text_ok f o t h1 h2]
  unfold process_after_text
  rw [h3]

/-- Reduction of `process_pdf_file` once a nonempty embedding has been
generated. -/
theorem process_pdf_file_emb_ok (f : String) (o : PdfOracles) (t : String)
    (md : Metadata) (emb : List Int)
    (h1 : extract_text_from_pdf o.pages = some t) (h2 : t ≠ "")
    (h3 : extract_metadata o.llm t f = some md)
    (h4 : create_embedding o.embedApi t = some emb) (h5 : emb ≠ []) :
    process_pdf_file f o = process_after_emb o t md emb := by
  rw [process_pdf_file_md_ok f o t md h1 h2 h3]
  unfold process_after_md
  rw [h4]
  exact if_neg h5

/-- Claim C3: a failure of text extraction, metadata extraction or
embedding generation stops that file's processing with no insert
attempted and a `none` result; the directory batch processes every file
and counts exactly the successful ones, so no single failure aborts it. -/
theorem C3_per_file_failure_isolation (f : String) (o : PdfOracles) :
    (extract_text_from_pdf o.pages = none → process_pdf_file f o = ⟨[], [], [], none⟩)
    ∧ (∀ t, extract_text_from_pdf o.pages = some t → t ≠ "" →
        (o.llm (metadata_prompt t) = none →
          process_pdf_file f o = ⟨[metadata_prompt t], [], [], none⟩)
        ∧ (∀ md, o.llm (metadata_prompt t) = some md →
            o.embedApi (py_slice t 8000) = none →
            process_pdf_file f o = ⟨[metadata_prompt t], [py_slice t 8000], [], none⟩))
    ∧ (∀ files : List (String × PdfOracles),
        process_directory files
          = files.countP (fun fo => ((process_pdf_file fo.1 fo.2).result).isSome)) := by
  refine ⟨?_, ?_, fun files => process_directory_countP files⟩
  · intro h
    unfold process_pdf_file
    rw [h]
  · intro t hext hne
    constructor
    · intro hllm
      rw [process_pdf_file_text_ok f o t hext hne]
      unfold process_after_text
      unfold extract_metadata
      rw [hllm]
    · intro md hllm hemb
      have hmd : extract_metadata o.llm t f
          = some { md with source_file := JField.val f } := by
        unfold extract_metadata
        rw [hllm]
      rw [process_pdf_file_md_ok f o t _ hext hne hmd]
      unfold process_after_md
      unfold create_embedding
      rw [hemb]

/-- Witness for C3: with a failing LLM oracle the concrete file inserts
nothing and the one-file batch reports zero successes. -/
theorem C3_per_file_failure_isolation_witness :
    (extract_text_from_pdf oraclesNoLLM.pages = some "hello"
      ∧ oraclesNoLLM.llm (metadata_prompt "hello") = none)
    ∧ process_pdf_file "f.pdf" oraclesNoLLM = ⟨[metadata_prompt "hello"], [], [], none⟩
    ∧ process_directory [("f.pdf", oraclesNoLLM)]
        = List.countP (fun fo => ((process_pdf_file fo.1 fo.2).result).isSome)
            [("f.pdf", oraclesNoLLM)] :=
  ⟨⟨rfl, rfl⟩,
   ((C3_per_file_failure_isolation "f.pdf" oraclesNoLLM).2.1 "hello" rfl
      (by decide)).1 rfl,
   (C3_per_file_failure_isolation "f.pdf" oraclesNoLLM).2.2 [("f.pdf", oraclesNoLLM)]⟩

/-- Claim C7: the three truncation limits are distinct constants applied
at distinct points of one file's processing of the same extracted text:
the LLM prompt embeds exactly the first 15000 characters, the embedding
request submits exactly the first 8000, and any row handed to the insert
holds exactly the first 5000 as its `content`. -/
theorem C7_three_truncation_limits (f : String) (o : PdfOracles) (t : String)
    (h1 : extract_text_from_pdf o.pages = some t) (h2 : t ≠ "") :
    (process_pdf_file f o).llmCalls
      = [metadata_prompt_head ++ py_slice t 15000 ++ metadata_prompt_tail]
    ∧ (∀ s ∈ (process_pdf_file f o).embedCalls, s = py_slice t 8000)
    ∧ (∀ d ∈ (process_pdf_file f o).insertCalls, d.content = py_slice t 5000) := by
  cases hmd : extract_metadata o.llm t f with
  | none =>
    have heq : process_pdf_file f o = ⟨[metadata_prompt t], [], [], none⟩ := by
      rw [process_pdf_file_text_ok f o t h1 h2]
      unfold process_after_text
      rw [hmd]
    rw [heq]
    refine ⟨rfl, ?_, ?_⟩
    · intro s hs
      cases hs
    · intro d hd
      cases hd
  | some md =>
    cases hemb : create_embedding o.embedApi t with
    | none =>
      have heq : process_pdf_file f o
          = ⟨[metadata_prompt t], [py_slice t 8000], [], none⟩ := by
        rw [process_pdf_file_md_ok f o t md h1 h2 hmd]
        unfold process_after_md
        rw [hemb]
      rw [heq]
      refine ⟨rfl, ?_, ?_⟩
      · intro s hs
        cases hs with
        | head => rfl
        | tail _ h => cases h
      · intro d hd
        cases hd
    | some emb =>
      by_cases hz : emb = []
      · subst hz
        have heq : process_pdf_file f o
            = ⟨[metadata_prompt t], [py_slice t 8000], [], none⟩ := by
          rw [process_pdf_file_md_ok f o t md h1 h2 hmd]
          unfold process_after_md
          rw [hemb]
          exact rfl
        rw [heq]
        refine ⟨rfl, ?_, ?_⟩
        · intro s hs
          cases hs with
          | head => rfl
          | tail _ h => cases h
        · intro d hd
          cases hd
      · have hred : process_pdf_file f o = process_after_emb o t md emb :=
          process_pdf_file_emb_ok f o t md emb h1 h2 hmd hemb hz
        cases hins : o.insert (store_to_supabase_data t md emb o.now) with
        | none =>
          have heq : process_pdf_file f o
              = ⟨[metadata_prompt t], [py_slice t 8000],
                  [store_to_supabase_data t md emb o.now], none⟩ := by
            rw [hred]
            unfold process_after_emb
            rw [hins]
          rw [heq]
          refine ⟨rfl, ?_, ?_⟩
          · intro s hs
            cases hs with
            | head => rfl
            | tail _ h => cases h
          · intro d hd
            cases hd with
            | head => rfl
            | tail _ h => cases h
        | some row =>
          have heq : process_pdf_file f o
              = ⟨[metadata_prompt t], [py_slice t 8000],
                  [store_to_supabase_data t md emb o.now], some row⟩ := by
            rw [hred]
            unfold process_after_emb
            rw [hins]
          rw [heq]
          refine ⟨rfl, ?_, ?_⟩
          · intro s hs
            cases hs with
            | head => rfl
            | tail _ h => cases h
          · intro d hd
            cases hd with
            | head => rfl
            | tail _ h => cases h

/-- Witness for C7 on a fully successful concrete run. -/
theorem C7_three_truncation_limits_witness :
    (extract_text_from_pdf oraclesOk.pages = some "hello" ∧ "hello" ≠ "")
    ∧ ((process_pdf_file "f.pdf" oraclesOk).llmCalls
        = [metadata_prompt_head ++ py_slice "hello" 15000 ++ metadata_prompt_tail]
      ∧ (∀ s ∈ (process_pdf_file "f.pdf" oraclesOk).embedCalls, s = py_slice "hello" 8000)
      ∧ (∀ d ∈ (process_pdf_file "f.pdf" oraclesOk).insertCalls,
          d.content = py_slice "hello" 5000)) :=
  ⟨⟨rfl, by decide⟩,
   C7_three_truncation_limits "f.pdf" oraclesOk "hello" rfl (by decide)⟩

/-- Concatenating whitespace-only pages (with the appended newlines)
onto a whitespace-only accumulator stays whitespace-only. -/
theorem fold_pages_ws (ps : List String)
    (h : ∀ p ∈ ps, ∀ c ∈ p.data, c.isWhitespace = true) :
    ∀ acc : String, (∀ c ∈ acc.data, c.isWhitespace = true) →
      ∀ c ∈ (ps.foldl (fun text page => text ++ page ++ "\n") acc).data,
        c.isWhitespace = true := by
  induction ps with
  | nil => intro acc hacc; exact hacc
  | cons p ps ih =>
    intro acc hacc
    rw [List.foldl_cons]
    apply ih (fun q hq => h q (List.mem_cons_of_mem p hq))
    intro c hc
    simp only [String.data_append, List.mem_append] at hc
    rcases hc with (hc | hc) | hc
    · exact hacc c hc
    · exact h p (List.mem_cons_self p ps) c hc
    · cases hc with
      | head => decide
      | tail _ h2 => cases h2

/-- Claim C9: a PDF that parses but yields only whitespace text makes
text extraction return the empty string, and the pipeline treats the
file exactly like an extraction failure: no LLM call, no embedding
call, no insert, a `none` result, and zero successes for the batch. -/
theorem C9_whitespace_pdf (f : String) (o : PdfOracles) (ps : List String)
    (h1 : o.pages = some ps)
    (h2 : ∀ p ∈ ps, ∀ c ∈ p.data, c.isWhitespace = true) :
    extract_text_from_pdf o.pages = some ""
    ∧ process_pdf_file f o = ⟨[], [], [], none⟩
    ∧ process_directory [(f, o)] = 0 := by
  have hws : py_strip (ps.foldl (fun text page => text ++ page ++ "\n") "") = "" :=
    py_strip_all_ws
      (fold_pages_ws ps h2 "" (fun c hc => absurd hc (List.not_mem_nil c)))
  have hext : extract_text_from_pdf o.pages = some "" := by
    rw [h1]
    show some (py_strip (ps.foldl (fun text page => text ++ page ++ "\n") "")) = some ""
    rw [hws]
  have hproc : process_pdf_file f o = ⟨[], [], [], none⟩ := by
    unfold process_pdf_file
    rw [hext]
    exact rfl
  exact ⟨hext, hproc, by simp [process_directory, hproc]⟩

/-- Witness for C9 on a concrete two-page whitespace-only PDF. -/
theorem C9_whitespace_pdf_witness :
    (oraclesWhitespace.pages = some [" ", "\t "]
      ∧ (∀ p ∈ ([" ", "\t "] : List String), ∀ c ∈ p.data, c.isWhitespace = true))
    ∧ (extract_text_from_pdf oraclesWhitespace.pages = some ""
      ∧ process_pdf_file "f.pdf" oraclesWhitespace = ⟨[], [], [], none⟩
      ∧ process_directory [("f.pdf", oraclesWhitespace)] = 0) :=
  ⟨⟨rfl, by decide⟩,
   C9_whitespace_pdf "f.pdf" oraclesWhitespace [" ", "\t "] rfl (by decide)⟩

/-- Appending one organization to the scan applies one dictionary
step. -/
theorem org_count_dict_concat (orgs : List (Option String)) (a : Option String) :
    org_count_dict (orgs ++ [a]) = org_counts_step (org_count_dict orgs) a := by
  unfold org_count_dict
  rw [List.foldl_append]
  rfl

/-- The `org_count` dictionary has pairwise-distinct keys, its keys are
exactly the organizations seen, and each entry counts its key's
occurrences. -/
theorem org_count_dict_spec (orgs : List (Option String)) :
    ((org_count_dict orgs).map Prod.fst).Nodup
    ∧ (∀ o : Option String, o ∈ (org_count_dict orgs).map Prod.fst ↔ o ∈ orgs)
    ∧ (∀ p ∈ org_count_dict orgs, p.2 = orgs.countP (fun x => x == p.1)) := by
  induction orgs using List.reverseRecOn with
  | nil =>
    refine ⟨List.nodup_nil, ?_, ?_⟩
    · intro o
      constructor
      · intro h
        cases h
      · intro h
        cases h
    · intro p hp
      cases hp
  | append_singleton l a ih =>
    obtain ⟨ihn, ihm, ihc⟩ := ih
    rw [org_count_dict_concat]
    unfold org_counts_step
    by_cases hmem : ∃ q ∈ org_count_dict l, q.1 = a
    · rw [if_pos hmem]
      have hal : a ∈ l := by
        obtain ⟨q, hq, hq1⟩ := hmem
        exact (ihm a).mp (List.mem_map.mpr ⟨q, hq, hq1⟩)
      have hkeys : ((org_count_dict l).map
            (fun p => if p.1 = a then (p.1, p.2 + 1) else p)).map Prod.fst
          = (org_count_dict l).map Prod.fst := by
        rw [List.map_map]
        apply List.map_congr_left
        intro p _
        by_cases hpa : p.1 = a
        · simp [hpa]
        · simp [hpa]
      refine ⟨?_, ?_, ?_⟩
      · rw [hkeys]
        exact ihn
      · intro o
        rw [hkeys]
        constructor
        · intro h
          exact List.mem_append_left _ ((ihm o).mp h)
        · intro h
          rcases List.mem_append.mp h with h | h
          · exact (ihm o).mpr h
          · cases h with
            | head => exact (ihm a).mpr hal
            | tail _ h2 => cases h2
      · intro p' hp'
        obtain ⟨p, hp, heq⟩ := List.mem_map.mp hp'
        rw [List.countP_append, List.countP_singleton]
        by_cases hpa : p.1 = a
        · rw [if_pos hpa] at heq
          rw [← heq]
          have hbeq : (a == (p.1, p.2 + 1).1) = true := by
            subst hpa
            exact beq_self_eq_true p.1
          rw [hbeq]
          rw [if_pos rfl]
          have := ihc p hp
          dsimp only
          omega
        · rw [if_neg hpa] at heq
          rw [← heq]
          have hbeq : (a == p.1) = false := by
            rw [beq_eq_false_iff_ne]
            intro hc
            exact hpa hc.symm
          rw [hbeq]
          rw [if_neg (by exact fun h => nomatch h)]
          have := ihc p hp
          omega
    · rw [if_neg hmem]
      have hanotin : a ∉ (org_count_dict l).map Prod.fst := by
        intro hc
        obtain ⟨q, hq, hq1⟩ := List.mem_map.mp hc
        exact hmem ⟨q, hq, hq1⟩
      have hanl : a ∉ l := fun hc => hanotin ((ihm a).mpr hc)
      refine ⟨?_, ?_, ?_⟩
      · rw [List.map_append]
        rw [List.nodup_append]
        refine ⟨ihn, List.nodup_singleton a, ?_⟩
        intro x hx hx2
        cases hx2 with
        | head => exact hanotin hx
        | tail _ h2 => cases h2
      · intro o
        rw [List.map_append]
        constructor
        · intro h
          rcases List.mem_append.mp h with h | h
          · exact List.mem_append_left _ ((ihm o).mp h)
          · exact List.mem_append_right _ h
        · intro h
          rcases List.mem_append.mp h with h | h
          · exact List.mem_append_left _ ((ihm o).mpr h)
          · exact List.mem_append_right _ h
      · intro p hp
        rw [List.countP_append, List.countP_singleton]
        rcases List.mem_append.mp hp with hpd | hpa
        · have hne : (a == p.1) = false := by
            rw [beq_eq_false_iff_ne]
            intro hc
            exact hmem ⟨p, hpd, hc.symm⟩
          rw [hne]
          rw [if_neg (by exact fun h => nomatch h)]
          have := ihc p hpd
          omega
        · cases hpa with
          | head =>
            have hz : l.countP (fun x => x == (a, 1).1) = 0 := by
              rw [List.countP_eq_zero]
              intro x hx hbx
              exact hanl (by rwa [show x = a from by simpa using hbx] at hx)
            rw [hz]
            simp
          | tail _ h2 => cases h2

/-- The dictionary has one entry per distinct organization value. -/
theorem org_count_dict_length (orgs : List (Option String)) :
    (org_count_dict orgs).length = orgs.dedup.length := by
  obtain ⟨hn, hm, _⟩ := org_count_dict_spec orgs
  have hperm : List.Perm ((org_count_dict orgs).map Prod.fst) orgs.dedup := by
    rw [List.perm_ext_iff_of_nodup hn (List.nodup_dedup orgs)]
    intro o
    rw [hm o, List.mem_dedup]
  have := hperm.length_eq
  rwa [List.length_map] at this

/-- Python's stable descending sort is a permutation. -/
theorem py_sorted_desc_perm {α : Type} (key : α → Nat) (l : List α) :
    List.Perm (py_sorted_desc key l) l :=
  List.perm_insertionSort _ l

/-- Python's stable descending sort yields a pairwise-descending list. -/
theorem py_sorted_desc_sorted {α : Type} (key : α → Nat) (l : List α) :
    List.Pairwise (fun a b => key b ≤ key a) (py_sorted_desc key l) := by
  haveI : IsTotal α (fun a b => key b ≤ key a) := ⟨fun a b => Nat.le_total (key b) (key a)⟩
  haveI : IsTrans α (fun a b => key b ≤ key a) := ⟨fun a b c h1 h2 => Nat.le_trans h2 h1⟩
  exact List.sorted_insertionSort (fun a b => key b ≤ key a) l

/-- Claim C8: the stats operation returns the total record count, the
number of distinct organization values, and at most five
(organization, count) pairs ordered by count descending, each count
being the number of records with that organization. -/
theorem C8_stats (db : List DBRow) :
    (get_stats db).total_projects = db.length
    ∧ (get_stats db).organizations
        = ((db.map (fun r => r.row.organization)).dedup).length
    ∧ (get_stats db).top_organizations.length ≤ 5
    ∧ List.Pairwise (fun a b : Option String × Nat => b.2 ≤ a.2)
        (get_stats db).top_organizations
    ∧ (∀ p ∈ (get_stats db).top_organizations,
        p.2 = db.countP (fun r => r.row.organization == p.1)) := by
  refine ⟨rfl, ?_, ?_, ?_, ?_⟩
  · exact org_count_dict_length (db.map (fun r => r.row.organization))
  · exact List.length_take_le 5 _
  · exact (py_sorted_desc_sorted (fun p : Option String × Nat => p.2) _).sublist
      (List.take_sublist 5 _)
  · intro p hp
    have h1 : p ∈ py_sorted_desc (fun p : Option String × Nat => p.2)
        (org_count_dict (db.map (fun r => r.row.organization))) :=
      List.mem_of_mem_take hp
    have h2 : p ∈ org_count_dict (db.map (fun r => r.row.organization)) :=
      (py_sorted_desc_perm (fun p : Option String × Nat => p.2) _).mem_iff.mp h1
    have h3 := (org_count_dict_spec (db.map (fun r => r.row.organization))).2.2 p h2
    rw [List.countP_map] at h3
    exact h3

/-- Witness for C8 on a concrete three-row store over two
organizations. -/
theorem C8_stats_witness :
    (get_stats dbStats).top_organizations = [(some "B", 2), (some "A", 1)]
    ∧ ((get_stats dbStats).total_projects = dbStats.length
      ∧ (get_stats dbStats).organizations
          = ((dbStats.map (fun r => r.row.organization)).dedup).length
      ∧ (get_stats dbStats).top_organizations.length ≤ 5
      ∧ List.Pairwise (fun a b : Option String × Nat => b.2 ≤ a.2)
          (get_stats dbStats).top_organizations
      ∧ (∀ p ∈ (get_stats dbStats).top_organizations,
          p.2 = dbStats.countP (fun r => r.row.organization == p.1))) :=
  ⟨by decide, C8_stats dbStats⟩
